import Mathlib

/-!
Verification of the submission-controller core of the repository
(`aiida_submission_controller/base.py` and `aiida_submission_controller/from_group.py`),
as a shallow embedding.

Data model: a process node stored in the controller's group is a `ProcRecord`
carrying the projected unique extras (each possibly absent, i.e. `none`),
the `sealed` attribute (possibly absent), and the node's pk.  The group is a
`Store`, a list of such records in insertion order.  An identity key is the
tuple of extra values, modelled as `List Int`.

Engine submission (`aiida.engine.submit` together with
`get_inputs_and_processclass_from_extras`) is an external collaborator; it is
modelled by an oracle `outcome : Key → Option Nat` giving, for each identity,
either the pk of the created node or `none` when one of the expected exception
kinds (`ValueError`, `TypeError`, `AttributeError`) is raised and caught.
-/

/-- An identity key: the tuple of values of the unique extras (Python tuple of
scalars, modelled as integers). -/
abbrev Key := List Int

/-- A process node in the controller's group, with the projections the queries
in `base.py` use: the unique extras (each possibly missing, i.e. `none`), the
`sealed` attribute (possibly absent), and the node pk. -/
structure ProcRecord where
  extras : List (Option Int)
  sealedAttr : Option Bool
  pk : Nat
deriving Repr, DecidableEq

/-- The controller's group: the list of process nodes it contains, in the
order they were added. -/
abbrev Store := List ProcRecord

/-- The `only_active` filter of `BaseSubmissionController.get_query`: a process
is active when `attributes.sealed` is `False` or the attribute is absent. -/
def isActive (r : ProcRecord) : Bool :=
  match r.sealedAttr with
  | some true => false
  | _ => true

/-- The per-row treatment in `BaseSubmissionController.get_all_submitted_pks`:
rows where any unique-extra projection is `None` are skipped; otherwise the
tuple of extra values is the key. -/
def fullKey (r : ProcRecord) : Option Key :=
  if r.extras.any (fun e => e.isNone) then none
  else some (r.extras.map (fun e => e.getD 0))

/-- `BaseSubmissionController.get_all_submitted_pks`: all processes in the
group keyed by their unique-extras tuple, skipping nodes without all of the
right extras. -/
def getAllSubmittedPks (s : Store) : List (Key × Nat) :=
  s.filterMap (fun r => (fullKey r).map (fun k => (k, r.pk)))

/-- The keys of the records of the store that carry a complete extras tuple. -/
def storeKeys (s : Store) : List Key :=
  s.filterMap fullKey

/-- `BaseSubmissionController._check_submitted_extras`: the set of extras of
already-submitted processes (a Python `set`, modelled as a deduplicated
list). -/
def checkSubmittedExtras (s : Store) : List Key :=
  (storeKeys s).dedup

/-- `BaseSubmissionController._count_active_in_group`: number of active
(unsealed) processes in the group.  Nodes with missing extras are counted all
the same: the query projects only `id` and filters only on sealing. -/
def countActiveInGroup (s : Store) : Nat :=
  (s.filter isActive).length

/-- The `num_available_slots` property:
`max(0, self.max_concurrent - self.num_active_slots)`. -/
def numAvailableSlots (maxConc : Int) (s : Store) : Int :=
  max 0 (maxConc - countActiveInGroup s)

/-- Strict lexicographic comparison of keys, mirroring Python tuple `<`. -/
def keyLt : Key → Key → Bool
  | [], [] => false
  | [], _ :: _ => true
  | _ :: _, [] => false
  | a :: as, b :: bs => if a < b then true else if b < a then false else keyLt as bs

/-- The ordering used by Python `sorted` on keys, as a decidable relation. -/
def keyOrder (a b : Key) : Prop := keyLt a b = true

instance : DecidableRel keyOrder :=
  fun a b => inferInstanceAs (Decidable (keyLt a b = true))

/-- Python `sorted` on a collection of keys. -/
def sortKeys (l : List Key) : List Key :=
  List.insertionSort keyOrder l

/-- The selection loop of `BaseSubmissionController.submit_new_batch`:

    for workchain_extras in extras_to_run:
        if len(to_submit) + self._count_active_in_group() >= self.max_concurrent:
            break
        to_submit.append(workchain_extras)

`_count_active_in_group` performs one store query per loop iteration; `counts i`
is the value observed by the query of the i-th iteration (external sealing may
change it between iterations).  `acc` is the reversed `to_submit` so far. -/
def selectLoop (counts : Nat → Nat) (maxConc : Int) :
    List Key → Nat → List Key → List Key
  | [], _, acc => acc.reverse
  | k :: rest, i, acc =>
    if (acc.length : Int) + (counts i : Int) ≥ maxConc then acc.reverse
    else selectLoop counts maxConc rest (i + 1) (k :: acc)

/-- The node created by a successful `engine.submit` followed by
`wc_node.set_extra_many(dict(zip(keys, extras)))`: every unique extra is set to
the corresponding key value, and the node is not yet sealed. -/
def newRecord (k : Key) (pk : Nat) : ProcRecord :=
  { extras := k.map some, sealedAttr := none, pk := pk }

/-- The submission loop of `submit_new_batch`: for each selected identity, get
the builder and submit; on an expected exception kind (outcome `none`) log and
continue; on success set the extras, add the node to the group and record the
result in the returned mapping.  `acc` is the reversed mapping so far. -/
def submissionLoop (outcome : Key → Option Nat) :
    List Key → Store → List (Key × Nat) → List (Key × Nat) × Store
  | [], s, acc => (acc.reverse, s)
  | k :: rest, s, acc =>
    match outcome k with
    | none => submissionLoop outcome rest s acc
    | some pk => submissionLoop outcome rest (s ++ [newRecord k pk]) ((k, pk) :: acc)

/-- The `extras_to_run` difference before optional sorting:
`set(self.get_all_extras_to_submit()).difference(self._check_submitted_extras())`.
The Python set is modelled as a deduplicated list. -/
def pendingUnsorted (catalog : List Key) (s : Store) : List Key :=
  catalog.dedup.filter (fun k => decide (k ∉ checkSubmittedExtras s))

/-- The pending list in the `sort=True` (default) configuration:
`sorted(set(catalog).difference(known))`. -/
def pendingOf (catalog : List Key) (s : Store) : List Key :=
  sortKeys (pendingUnsorted catalog s)

/-- `BaseSubmissionController.submit_new_batch`.

`catalog` is the value of `get_all_extras_to_submit()` (already a set in the
API; `set(...)` is modelled by `dedup`).  `outcome` is the engine oracle.
`setIter` gives the (unspecified) iteration order of the Python set when
`sort=False`; it is irrelevant when `srt = true` because `sorted` normalises
the order.  The store is not written before the submission loop, and the
submission loop does not query the active count again, so with no concurrent
writer every `_count_active_in_group()` call of the selection loop observes
`countActiveInGroup s`; the selection loop is therefore instantiated with that
constant observation sequence.  Returns the mapping `submitted` (or
`{key: None ...}` on a dry run) together with the store after the call. -/
def submitNewBatch (catalog : List Key) (outcome : Key → Option Nat)
    (maxConc : Int) (dryRun : Bool) (srt : Bool)
    (setIter : List Key → List Key) (s : Store) :
    List (Key × Option Nat) × Store :=
  let extrasToRun :=
    if srt then pendingOf catalog s else setIter (pendingUnsorted catalog s)
  let toSubmit := selectLoop (fun _ => countActiveInGroup s) maxConc extrasToRun 0 []
  if dryRun then (toSubmit.map (fun k => (k, none)), s)
  else
    let res := submissionLoop outcome toSubmit s []
    (res.1.map (fun p => (p.1, some p.2)), res.2)

/-- One `submit_new_batch` call in a sequence of calls on one controller
instance: the catalog and the engine oracle may differ between calls, as may
the `dry_run` and `sort` arguments and the set iteration order. -/
structure CallSpec where
  catalog : List Key
  outcome : Key → Option Nat
  dryRun : Bool
  srt : Bool
  setIter : List Key → List Key

/-- A sequence of `submit_new_batch` calls on one controller instance
(fixed `max_concurrent`), threading the store (single writer,
read-your-writes). -/
def runCalls (maxConc : Int) (s : Store) : List CallSpec → Store
  | [] => s
  | c :: rest =>
    runCalls maxConc (submitNewBatch c.catalog c.outcome maxConc c.dryRun c.srt c.setIter s).2 rest

/-- The store never holds two records with the same complete identity key
(spec invariant I1 / property P1). -/
def noDupSubmissions (s : Store) : Prop :=
  (storeKeys s).Nodup

/-- The two assertion failures `FromGroupSubmissionController.get_all_extras_to_submit`
can raise, playing the role of the spec's catalog-integrity errors. -/
inductive CtrlError where
  | missingExtra
  | duplicateExtras
deriving Repr, DecidableEq

/-- `FromGroupSubmissionController.get_all_extras_to_submit`: project the
unique extras of every node of the parent group (a row of possibly-missing
values per node, in query order), assert that no node misses a required extra,
convert to a set and assert that there are no duplicates.  The set-size
equality check `len(results) == len(results_set)` is modelled by comparing
the length of `results` with the length of its deduplication. -/
def getAllExtrasToSubmit (rows : List (List (Option Int))) :
    Except CtrlError (List Key) :=
  if rows.all (fun row => row.all (fun e => e.isSome)) then
    let results : List Key := rows.map (fun row => row.filterMap id)
    if results.dedup.length = results.length then .ok results.dedup
    else .error .duplicateExtras
  else .error .missingExtra

/-- `submit_new_batch` as run on a `FromGroupSubmissionController`: the first
store access is `get_all_extras_to_submit()`, whose assertion failures
propagate before any submission or store write (the store component of the
result is the unchanged store in that case). -/
def submitNewBatchFG (rows : List (List (Option Int))) (outcome : Key → Option Nat)
    (maxConc : Int) (dryRun : Bool) (srt : Bool)
    (setIter : List Key → List Key) (s : Store) :
    Except CtrlError (List (Key × Option Nat)) × Store :=
  match getAllExtrasToSubmit rows with
  | .error e => (.error e, s)
  | .ok catalog =>
    let r := submitNewBatch catalog outcome maxConc dryRun srt setIter s
    (.ok r.1, r.2)

/-- The constructor-time data of `BaseSubmissionController` (a pydantic
model). -/
structure ControllerConfig where
  group_label : String
  max_concurrent : Int
  unique_extra_keys : Option (List String)
deriving Repr, DecidableEq

/-- Construction-time validation of `BaseSubmissionController`: the only
custom pydantic validator is `validate_group_exists` on `group_label`
(field types aside, nothing else is checked). -/
def validateController (existingGroups : List String) (cfg : ControllerConfig) :
    Except String ControllerConfig :=
  if cfg.group_label ∈ existingGroups then .ok cfg
  else .error "Group with label does not exist."

/-!
Characterisation lemmas for the embedded operations.
-/

/-- When every `_count_active_in_group` query of the selection loop observes the
same value `c` (no concurrent change of the group), the loop keeps a prefix of
the candidate list bounded by the remaining budget. -/
lemma selectLoop_const (c : Nat) (mc : Int) (l : List Key) :
    ∀ (i : Nat) (acc : List Key),
      selectLoop (fun _ => c) mc l i acc
        = acc.reverse ++ l.take (mc - c - acc.length).toNat := by
  induction l with
  | nil => intro i acc; simp [selectLoop]
  | cons k rest ih =>
    intro i acc
    simp only [selectLoop]
    by_cases h : (acc.length : Int) + (c : Int) ≥ mc
    · rw [if_pos h]
      have h0 : (mc - (c : Int) - (acc.length : Int)).toNat = 0 := by omega
      rw [h0]
      simp
    · rw [if_neg h]
      rw [ih (i + 1) (k :: acc)]
      have h1 : (mc - (c : Int) - (acc.length : Int)).toNat
          = (mc - (c : Int) - (((k :: acc).length : Nat) : Int)).toNat + 1 := by
        simp only [List.length_cons]
        push_cast
        omega
      rw [h1, List.take_succ_cons]
      simp

/-- Special case of `selectLoop_const` with an empty accumulator: the batch is
the capacity-prefix of the candidate list. -/
lemma selectLoop_const_nil (c : Nat) (mc : Int) (l : List Key) (i : Nat) :
    selectLoop (fun _ => c) mc l i [] = l.take (mc - c).toNat := by
  rw [selectLoop_const]
  simp

/-- Unfolding of the submission loop: the returned mapping collects exactly the
batch elements whose engine submission succeeds, and the group gains a fresh
record per such element, in order. -/
lemma submissionLoop_spec (outcome : Key → Option Nat) (batch : List Key) :
    ∀ (s : Store) (acc : List (Key × Nat)),
      submissionLoop outcome batch s acc
        = (acc.reverse ++ (batch.filter (fun k => (outcome k).isSome)).map
             (fun k => (k, (outcome k).getD 0)),
           s ++ (batch.filter (fun k => (outcome k).isSome)).map
             (fun k => newRecord k ((outcome k).getD 0))) := by
  induction batch with
  | nil => intro s acc; simp [submissionLoop]
  | cons k rest ih =>
    intro s acc
    cases h : outcome k with
    | none =>
      simp only [submissionLoop, h]
      rw [ih]
      simp [List.filter_cons, h]
    | some pk =>
      simp only [submissionLoop, h]
      rw [ih]
      simp [List.filter_cons, h]

/-- A freshly submitted node carries the complete extras tuple of its key. -/
lemma fullKey_newRecord (k : Key) (pk : Nat) : fullKey (newRecord k pk) = some k := by
  simp only [fullKey, newRecord]
  rw [if_neg ?_, List.map_map]
  · have h2 : ((fun e : Option Int => e.getD 0) ∘ some) = id := rfl
    rw [h2, List.map_id]
  · simp

/-- A freshly submitted node is active (its sealing attribute is absent). -/
lemma isActive_newRecord (k : Key) (pk : Nat) : isActive (newRecord k pk) = true := rfl

lemma storeKeys_append (s t : Store) :
    storeKeys (s ++ t) = storeKeys s ++ storeKeys t := by
  simp [storeKeys, List.filterMap_append]

lemma storeKeys_newRecords (ks : List Key) (f : Key → Nat) :
    storeKeys (ks.map (fun k => newRecord k (f k))) = ks := by
  rw [storeKeys, List.filterMap_map]
  have : (fullKey ∘ fun k => newRecord k (f k)) = some := by
    funext k
    simp [Function.comp, fullKey_newRecord]
  rw [this, List.filterMap_some]

lemma mem_checkSubmittedExtras (s : Store) (k : Key) :
    k ∈ checkSubmittedExtras s ↔ k ∈ storeKeys s := by
  simp [checkSubmittedExtras, List.mem_dedup]

lemma countActive_append (s t : Store) :
    countActiveInGroup (s ++ t) = countActiveInGroup s + countActiveInGroup t := by
  simp [countActiveInGroup, List.filter_append]

lemma countActive_newRecords (ks : List Key) (f : Key → Nat) :
    countActiveInGroup (ks.map (fun k => newRecord k (f k))) = ks.length := by
  simp [countActiveInGroup, List.filter_map, Function.comp, isActive_newRecord]

lemma nodup_pendingUnsorted (catalog : List Key) (s : Store) :
    (pendingUnsorted catalog s).Nodup :=
  (List.nodup_dedup catalog).filter _

lemma nodup_pendingOf (catalog : List Key) (s : Store) :
    (pendingOf catalog s).Nodup :=
  (List.perm_insertionSort keyOrder (pendingUnsorted catalog s)).nodup_iff.mpr
    (nodup_pendingUnsorted catalog s)

lemma mem_pendingUnsorted_not_submitted (catalog : List Key) (s : Store) (k : Key) :
    k ∈ pendingUnsorted catalog s → k ∉ storeKeys s := by
  intro hk
  have := (List.mem_filter.mp hk).2
  simp only [decide_eq_true_eq] at this
  intro hmem
  exact this ((mem_checkSubmittedExtras s k).mpr hmem)

/-- The batch selected by one `submit_new_batch` call: the capacity-prefix of
the pending identities, in the configured iteration order. -/
def batchOf (catalog : List Key) (mc : Int) (srt : Bool)
    (setIter : List Key → List Key) (s : Store) : List Key :=
  (if srt then pendingOf catalog s
   else setIter (pendingUnsorted catalog s)).take (mc - countActiveInGroup s).toNat

lemma toNat_numAvailableSlots (mc : Int) (s : Store) :
    (numAvailableSlots mc s).toNat = (mc - countActiveInGroup s).toNat := by
  rw [numAvailableSlots]
  omega

/-- Master characterisation of `submit_new_batch`: the call either returns the
dry-run mapping and leaves the store alone, or submits the batch elements whose
engine submission succeeds, appending one record to the group per success. -/
lemma submitNewBatch_eq (catalog : List Key) (outcome : Key → Option Nat)
    (mc : Int) (dr srt : Bool) (setIter : List Key → List Key) (s : Store) :
    submitNewBatch catalog outcome mc dr srt setIter s
      = if dr then ((batchOf catalog mc srt setIter s).map (fun k => (k, none)), s)
        else
          (((batchOf catalog mc srt setIter s).filter (fun k => (outcome k).isSome)).map
             (fun k => (k, some ((outcome k).getD 0))),
           s ++ ((batchOf catalog mc srt setIter s).filter (fun k => (outcome k).isSome)).map
             (fun k => newRecord k ((outcome k).getD 0))) := by
  simp only [submitNewBatch, batchOf]
  rw [selectLoop_const_nil]
  cases dr with
  | true => simp
  | false =>
    simp only [if_neg Bool.false_ne_true, Bool.false_eq_true]
    rw [submissionLoop_spec]
    simp [List.map_map, Function.comp]

lemma nodup_batchOf (catalog : List Key) (mc : Int) (srt : Bool)
    (setIter : List Key → List Key) (s : Store)
    (hp : ∀ l : List Key, List.Perm (setIter l) l) :
    (batchOf catalog mc srt setIter s).Nodup := by
  apply List.Nodup.sublist (List.take_sublist _ _)
  cases srt with
  | true => simpa [batchOf] using nodup_pendingOf catalog s
  | false =>
    simp only [batchOf, Bool.false_eq_true, if_false]
    exact (hp (pendingUnsorted catalog s)).nodup_iff.mpr (nodup_pendingUnsorted catalog s)

lemma mem_batchOf_not_submitted (catalog : List Key) (mc : Int) (srt : Bool)
    (setIter : List Key → List Key) (s : Store) (k : Key)
    (hp : ∀ l : List Key, List.Perm (setIter l) l) :
    k ∈ batchOf catalog mc srt setIter s → k ∉ storeKeys s := by
  intro hk
  apply mem_pendingUnsorted_not_submitted catalog s k
  have hk2 := List.take_subset _ _ hk
  cases srt with
  | true =>
    simp only [if_true] at hk2
    exact (List.perm_insertionSort keyOrder (pendingUnsorted catalog s)).subset hk2
  | false =>
    simp only [Bool.false_eq_true, if_false] at hk2
    exact (hp (pendingUnsorted catalog s)).subset hk2

lemma submit_step_nodup (catalog : List Key) (outcome : Key → Option Nat)
    (mc : Int) (dr srt : Bool) (setIter : List Key → List Key) (s : Store)
    (hp : ∀ l : List Key, List.Perm (setIter l) l)
    (h : noDupSubmissions s) :
    noDupSubmissions (submitNewBatch catalog outcome mc dr srt setIter s).2 := by
  rw [submitNewBatch_eq]
  cases dr with
  | true => simpa using h
  | false =>
    simp only [Bool.false_eq_true, if_false]
    unfold noDupSubmissions
    rw [storeKeys_append, storeKeys_newRecords, List.nodup_append]
    refine ⟨h, ?_, ?_⟩
    · exact List.Nodup.sublist (List.filter_sublist _) (nodup_batchOf catalog mc srt setIter s hp)
    · intro a ha hb
      have hmem : a ∈ batchOf catalog mc srt setIter s := List.mem_of_mem_filter hb
      exact mem_batchOf_not_submitted catalog mc srt setIter s a hp hmem ha

/-- C1 (no double submission): across any sequence of `submit_new_batch` calls
on one controller instance, with the single-writer read-your-writes store, a
key already present among the known submitted identities is never submitted
again, so the store never holds two records with the same identity key.  The
`hperm` hypothesis states only that the unspecified Python set iteration order
used when `sort=False` enumerates each pending identity exactly once. -/
theorem no_double_submission (mc : Int) (s : Store) (calls : List CallSpec)
    (hperm : ∀ c ∈ calls, ∀ l : List Key, List.Perm (c.setIter l) l)
    (h : noDupSubmissions s) :
    noDupSubmissions (runCalls mc s calls) := by
  induction calls generalizing s with
  | nil => exact h
  | cons c rest ih =>
    simp only [runCalls]
    apply ih
    · intro c2 hc2 l
      exact hperm c2 (List.mem_cons_of_mem c hc2) l
    · exact submit_step_nodup c.catalog c.outcome mc c.dryRun c.srt c.setIter s
        (hperm c (List.mem_cons_self c rest)) h

/-- Witness for C1: two consecutive submitting calls with the same catalog on
an initially empty store leave the store free of duplicate identities. -/
theorem no_double_submission_witness :
    noDupSubmissions (runCalls 5 []
      [⟨[[1], [2], [3]], fun _ => some 7, false, true, id⟩,
       ⟨[[1], [2], [3]], fun _ => some 8, false, true, id⟩]) := by
  apply no_double_submission 5 []
    [⟨[[1], [2], [3]], fun _ => some 7, false, true, id⟩,
     ⟨[[1], [2], [3]], fun _ => some 8, false, true, id⟩]
  · intro c hc l
    simp only [List.mem_cons, List.not_mem_nil, or_false] at hc
    rcases hc with rfl | rfl
    · exact List.Perm.refl l
    · exact List.Perm.refl l
  · exact List.nodup_nil

/-- C2 (amended, capacity bound at call time): if the count of active records
satisfies the bound `activeCount ≤ max_concurrent` when `submit_new_batch` is
called, then it still satisfies it right after the call returns, assuming no
external sealing during the call and no concurrent writer. -/
theorem capacity_bound_after_batch (catalog : List Key) (outcome : Key → Option Nat)
    (mc : Int) (dr srt : Bool) (setIter : List Key → List Key) (s : Store)
    (h : (countActiveInGroup s : Int) ≤ mc) :
    (countActiveInGroup (submitNewBatch catalog outcome mc dr srt setIter s).2 : Int) ≤ mc := by
  rw [submitNewBatch_eq]
  cases dr with
  | true => simpa using h
  | false =>
    simp only [Bool.false_eq_true, if_false]
    rw [countActive_append, countActive_newRecords]
    have h1 : ((batchOf catalog mc srt setIter s).filter (fun k => (outcome k).isSome)).length
        ≤ (mc - countActiveInGroup s).toNat := by
      calc ((batchOf catalog mc srt setIter s).filter (fun k => (outcome k).isSome)).length
          ≤ (batchOf catalog mc srt setIter s).length := List.length_filter_le _ _
        _ ≤ (mc - countActiveInGroup s).toNat := by
            rw [batchOf]
            exact List.length_take_le _ _
    omega

/-- Witness for C2: on an empty store with capacity 2, a successful batch keeps
the active count within the bound. -/
theorem capacity_bound_after_batch_witness :
    (countActiveInGroup
      (submitNewBatch [[1], [2], [3]] (fun _ => some 9) 2 false true id []).2 : Int) ≤ 2 :=
  capacity_bound_after_batch [[1], [2], [3]] (fun _ => some 9) 2 false true id []
    (by decide)

/-- Counterexample for C2 as stated: if the store already holds more active
records than `max_concurrent` when the call begins (three unsealed processes
against a bound of two), `submit_new_batch` submits nothing but the active
count after the call is still 3, exceeding the bound; the claim needs the
bound to hold at call entry. -/
theorem capacity_bound_after_batch_cex :
    countActiveInGroup
      (submitNewBatch [[4]] (fun _ => some 9) 2 false true id
        [⟨[some 1], none, 1⟩, ⟨[some 2], none, 2⟩, ⟨[some 3], none, 3⟩]).2 = 3
    ∧ ¬ ((3 : Int) ≤ 2) := by
  constructor
  · rfl
  · decide

/-- C3 (amended, batch selection): when every `_count_active_in_group` query of
the selection loop observes the same active count `c` (the group is not
concurrently modified during selection), the selected batch is exactly the
first `max(0, max_concurrent - activeCount)` elements of the pending list.
The code does, however, re-query the active count once per examined item
inside the loop rather than computing capacity once before it; see the
accompanying counterexample. -/
theorem batch_is_capacity_prefix_of_pending (counts : Nat → Nat) (c : Nat)
    (mc : Int) (pending : List Key) (h : ∀ i, counts i = c) :
    selectLoop counts mc pending 0 [] = pending.take (max 0 (mc - (c : Int))).toNat := by
  have hc : counts = fun _ => c := funext h
  rw [hc, selectLoop_const_nil]
  congr 1
  omega

/-- Witness for C3: with a constant observed active count of 1 and a bound of
3, the batch is the 2-element prefix of the pending list. -/
theorem batch_is_capacity_prefix_of_pending_witness :
    selectLoop (fun _ => 1) 3 [[1], [2], [3]] 0 []
      = ([[1], [2], [3]] : List Key).take (max 0 ((3 : Int) - (1 : Nat))).toNat :=
  batch_is_capacity_prefix_of_pending (fun _ => 1) 1 3 [[1], [2], [3]] (fun _ => rfl)

/-- Counterexample for C3 as stated: the selection loop re-queries the active
count for each examined item instead of snapshotting capacity once before the
loop.  With `max_concurrent = 2`, pending `[[1],[2],[3]]`, and the first query
observing 1 active process that is sealed externally before the second query
(so later queries observe 0), the loop selects `[[1],[2]]`, while a capacity
snapshot taken once before the loop (`max(0, 2 - 1) = 1`) would select only
`[[1]]`. -/
theorem capacity_requeried_per_item_cex :
    selectLoop (fun i => if i = 0 then 1 else 0) 2 [[1], [2], [3]] 0 [] = [[1], [2]]
    ∧ selectLoop (fun i => if i = 0 then 1 else 0) 2 [[1], [2], [3]] 0 []
        ≠ ([[1], [2], [3]] : List Key).take (max 0 ((2 : Int) - ((fun i => if i = 0 then 1 else 0) 0 : Nat))).toNat := by
  constructor
  · decide
  · decide

/-- C4 (dry-run purity): `submit_new_batch(dry_run=True)` returns before any
engine call or store write, so the store — and with it the known identities
and the active count — is unchanged, and the returned mapping sends each of
the first `availableCapacity` pending identities (under the default ascending
ordering) to `None`. -/
theorem dry_run_purity (catalog : List Key) (outcome : Key → Option Nat)
    (mc : Int) (setIter : List Key → List Key) (s : Store) :
    (submitNewBatch catalog outcome mc true true setIter s).2 = s
    ∧ checkSubmittedExtras (submitNewBatch catalog outcome mc true true setIter s).2
        = checkSubmittedExtras s
    ∧ countActiveInGroup (submitNewBatch catalog outcome mc true true setIter s).2
        = countActiveInGroup s
    ∧ (submitNewBatch catalog outcome mc true true setIter s).1
        = ((pendingOf catalog s).take (numAvailableSlots mc s).toNat).map
            (fun k => (k, none)) := by
  rw [submitNewBatch_eq]
  refine ⟨rfl, rfl, rfl, ?_⟩
  simp only [if_true, batchOf, toNat_numAvailableSlots]

/-- C5 (duplicate catalog detection): if the parent-group enumeration yields
two identical extras tuples, or a tuple with a missing (`None`) key field,
`submit_new_batch` on a `FromGroupSubmissionController` fails with one of the
catalog-integrity assertion errors before any submission or store write: the
store is returned unchanged and no mapping is produced. -/
theorem duplicate_catalog_aborts (rows : List (List (Option Int)))
    (outcome : Key → Option Nat) (mc : Int) (dr srt : Bool)
    (setIter : List Key → List Key) (s : Store)
    (h : ¬ rows.Nodup ∨ ∃ row ∈ rows, ∃ e ∈ row, e = none) :
    ∃ err, submitNewBatchFG rows outcome mc dr srt setIter s = (.error err, s) := by
  by_cases hall : rows.all (fun row => row.all (fun e => e.isSome)) = true
  · have hnodup : ¬ rows.Nodup := by
      rcases h with h | ⟨row, hrow, e, he, hne⟩
      · exact h
      · exfalso
        have h1 := (List.all_eq_true.mp hall) row hrow
        have h2 := (List.all_eq_true.mp h1) e he
        rw [hne] at h2
        simp at h2
    have hmapnd : ¬ (rows.map (fun row => row.filterMap id)).Nodup := by
      intro hcon
      exact hnodup (List.Nodup.of_map _ hcon)
    have hlen : ¬ ((rows.map (fun row => row.filterMap id)).dedup.length
        = rows.length) := by
      intro heq
      apply hmapnd
      have hsub := List.dedup_sublist (rows.map (fun row => row.filterMap id))
      rw [← List.length_map rows (fun row => row.filterMap id)] at heq
      have heq2 := hsub.eq_of_length heq
      rw [← heq2]
      exact List.nodup_dedup _
    refine ⟨.duplicateExtras, ?_⟩
    simp [submitNewBatchFG, getAllExtrasToSubmit, hall, hlen]
  · refine ⟨.missingExtra, ?_⟩
    simp [submitNewBatchFG, getAllExtrasToSubmit, hall]

/-- Witness for C5: a parent group with two nodes carrying identical extras
makes the call abort with the store untouched. -/
theorem duplicate_catalog_aborts_witness :
    ∃ err, submitNewBatchFG [[some 1], [some 1]] (fun _ => none) 5 false true id []
      = (.error err, []) :=
  duplicate_catalog_aborts [[some 1], [some 1]] (fun _ => none) 5 false true id []
    (Or.inl (by decide))

/-- C6 (partial failure isolation): for a selected batch of three identities
whose second submission raises an expected error kind (caught by the loop),
`submit_new_batch` returns normally with a mapping for the first and third
identities, and the group gains exactly the two corresponding records. -/
theorem partial_failure_isolation (catalog : List Key) (outcome : Key → Option Nat)
    (mc : Int) (setIter : List Key → List Key) (s : Store)
    (k1 k2 k3 : Key) (p1 p3 : Nat)
    (hb : (pendingOf catalog s).take (numAvailableSlots mc s).toNat = [k1, k2, k3])
    (h1 : outcome k1 = some p1) (h2 : outcome k2 = none) (h3 : outcome k3 = some p3) :
    (submitNewBatch catalog outcome mc false true setIter s).1
        = [(k1, some p1), (k3, some p3)]
    ∧ (submitNewBatch catalog outcome mc false true setIter s).2
        = s ++ [newRecord k1 p1, newRecord k3 p3] := by
  have hb2 : batchOf catalog mc true setIter s = [k1, k2, k3] := by
    rw [batchOf, if_pos rfl, ← toNat_numAvailableSlots]
    exact hb
  rw [submitNewBatch_eq]
  simp only [Bool.false_eq_true, if_false, hb2]
  constructor
  · simp [List.filter_cons, h1, h2, h3]
  · simp [List.filter_cons, h1, h2, h3]

/-- Witness for C6: a concrete catalog of three identities with the middle
submission failing yields exactly the first and third results and two new
records. -/
theorem partial_failure_isolation_witness :
    (submitNewBatch [[1], [2], [3]]
        (fun k => if k = [2] then none else if k = [1] then some 11 else some 13)
        5 false true id []).1
      = [([1], some 11), ([3], some 13)]
    ∧ (submitNewBatch [[1], [2], [3]]
        (fun k => if k = [2] then none else if k = [1] then some 11 else some 13)
        5 false true id []).2
      = [] ++ [newRecord [1] 11, newRecord [3] 13] :=
  partial_failure_isolation [[1], [2], [3]]
    (fun k => if k = [2] then none else if k = [1] then some 11 else some 13)
    5 id [] [1] [2] [3] 11 13 (by decide) (by decide) (by decide) (by decide)

/-- C7 (amended, construction validation): the only construction-time
validation of `BaseSubmissionController` is the pydantic validator checking
that the group with the given label exists; a controller with a non-positive
`max_concurrent` is accepted without error (the field is only type-checked). -/
theorem construction_accepts_any_max_concurrent (existingGroups : List String)
    (cfg : ControllerConfig) (h : cfg.group_label ∈ existingGroups) :
    validateController existingGroups cfg = .ok cfg := by
  rw [validateController, if_pos h]

/-- Witness for C7: a controller with `max_concurrent = -1` on an existing
group is constructed without error. -/
theorem construction_accepts_any_max_concurrent_witness :
    validateController ["workchains"] ⟨"workchains", -1, none⟩
      = .ok ⟨"workchains", -1, none⟩ :=
  construction_accepts_any_max_concurrent ["workchains"] ⟨"workchains", -1, none⟩
    (by simp)

/-- Counterexample for C7 as stated: constructing a controller with
`max_concurrent = 0` (a non-positive bound) succeeds; no configuration error
is raised at construction time. -/
theorem construction_validation_cex :
    validateController ["workchains"] ⟨"workchains", 0, none⟩
      = .ok ⟨"workchains", 0, none⟩
    ∧ ¬ ((0 : Int) > 0) := by
  constructor
  · rfl
  · decide

/-- C8 divergence witness: the parent group enumerated under a custom
`order_by` (here descending: the query returns the rows for keys 3, 2, 1 in
that order) does not drive batch selection.  `get_all_extras_to_submit`
returns a set and `submit_new_batch` (default `sort=True`) re-sorts it
ascending, so with capacity 2 the batch is `[1], [2]` — not the first two
identities `[3], [2]` of the custom ordering. -/
theorem order_by_ignored_eval :
    (submitNewBatchFG [[some 3], [some 2], [some 1]] (fun _ => none) 2 true true id []).1
      = .ok [([1], none), ([2], none)]
    ∧ (submitNewBatchFG [[some 3], [some 2], [some 1]] (fun _ => none) 2 true true id []).1
      ≠ .ok [([3], none), ([2], none)] := by
  constructor
  · rfl
  · intro hcon
    injection hcon with h2
    exact absurd h2 (by decide)

/-- C9 (implicit): a process node in the group lacking one of the unique
extras is invisible to `get_all_submitted_pks` (hence absent from the known
identities, so it does not block resubmission of any key), yet while unsealed
it is still counted by `_count_active_in_group` and consumes a concurrency
slot. -/
theorem none_extra_invisible_but_active (s : Store) (r : ProcRecord)
    (h1 : ∃ e ∈ r.extras, e = none) (h2 : isActive r = true) :
    getAllSubmittedPks (s ++ [r]) = getAllSubmittedPks s
    ∧ checkSubmittedExtras (s ++ [r]) = checkSubmittedExtras s
    ∧ countActiveInGroup (s ++ [r]) = countActiveInGroup s + 1 := by
  have hfk : fullKey r = none := by
    rw [fullKey, if_pos]
    rw [List.any_eq_true]
    rcases h1 with ⟨e, he, hne⟩
    refine ⟨e, he, ?_⟩
    rw [hne]
    rfl
  refine ⟨?_, ?_, ?_⟩
  · simp [getAllSubmittedPks, List.filterMap_append, hfk]
  · simp [checkSubmittedExtras, storeKeys, List.filterMap_append, hfk]
  · simp [countActiveInGroup, List.filter_append, h2]

/-- Witness for C9: a single unsealed node with a missing extra is counted as
active but contributes no known identity. -/
theorem none_extra_invisible_but_active_witness :
    getAllSubmittedPks ([] ++ [⟨[none], none, 4⟩]) = getAllSubmittedPks []
    ∧ checkSubmittedExtras ([] ++ [⟨[none], none, 4⟩]) = checkSubmittedExtras []
    ∧ countActiveInGroup ([] ++ [⟨[none], none, 4⟩]) = countActiveInGroup [] + 1 :=
  none_extra_invisible_but_active [] ⟨[none], none, 4⟩ (by decide) (by decide)

/-- C10 (implicit): in a non-dry run, the key set of the returned mapping is
exactly the set of identities for which a new record (extras set, node added
to the group) was created during the call — the store's keys grow by precisely
the returned keys — and every returned key had a successful engine submission,
so an identity whose submission raised a caught exception appears in neither
the mapping nor the store. -/
theorem returned_keys_match_new_records (catalog : List Key)
    (outcome : Key → Option Nat) (mc : Int) (srt : Bool)
    (setIter : List Key → List Key) (s : Store) :
    storeKeys (submitNewBatch catalog outcome mc false srt setIter s).2
      = storeKeys s ++ ((submitNewBatch catalog outcome mc false srt setIter s).1).map Prod.fst
    ∧ ((submitNewBatch catalog outcome mc false srt setIter s).1).map Prod.fst
      = (batchOf catalog mc srt setIter s).filter (fun k => (outcome k).isSome)
    ∧ (((submitNewBatch catalog outcome mc false srt setIter s).1).map Prod.fst).all
        (fun k => (outcome k).isSome) = true := by
  have hkeys : ((submitNewBatch catalog outcome mc false srt setIter s).1).map Prod.fst
      = (batchOf catalog mc srt setIter s).filter (fun k => (outcome k).isSome) := by
    rw [submitNewBatch_eq]
    simp only [Bool.false_eq_true, if_false, List.map_map]
    have hcomp : (Prod.fst ∘ fun k : Key => (k, some ((outcome k).getD 0))) = id := rfl
    rw [hcomp, List.map_id]
  refine ⟨?_, hkeys, ?_⟩
  · rw [hkeys, submitNewBatch_eq]
    simp only [Bool.false_eq_true, if_false]
    rw [storeKeys_append, storeKeys_newRecords]
  · rw [hkeys, List.all_eq_true]
    intro k hk
    exact (List.mem_filter.mp hk).2
